import Mathlib

/-!
Verification of the session-scoped request-supervision and barge-in subsystem
of the kisaanai voice backend.

The definitions below are a shallow embedding of
`backend/app/core/voice_session.py` (class `VoiceSessionManager`) and of the
pipeline orchestration in `backend/app/api/voice.py` (`voice_query` and its
inner `process_voice` coroutine).

Modelling conventions:
* `datetime.utcnow()` timestamps are `Nat` values passed explicitly to each
  operation (`now`); `uuid.uuid4()` identifiers are explicit arguments.
* An `asyncio.Task` is modelled by a `TaskState` record held in a global task
  table: `done` is the value of `task.done()`, `cancelRequested` records that
  `task.cancel()` has been invoked.  `cancel()` only requests cancellation; it
  never sets `done` (cooperative, fire-and-forget cancellation).  The `owner`
  field is ghost state recording which session a task was spawned for; no
  operation of the code reads it.
* The session dictionary `self._sessions` is an association list keyed by the
  session id string; `getA`/`setA`/`eraseA` mirror dict read / assignment /
  `del`.
-/

namespace VoiceCore

/-- Identifier of an `asyncio.Task` object. -/
abbrev TaskId := Nat

/-- State of one `asyncio.Task`: `done` is `task.done()`, `cancelRequested`
records that `task.cancel()` was called.  `owner` is ghost state: the session
the task was spawned for. -/
structure TaskState where
  done : Bool
  cancelRequested : Bool
  owner : Option String
deriving DecidableEq, Repr

/-- One session record: the dict built in `VoiceSessionManager.create_session`
(fields `user_id`, `created_at`, `last_activity`, `active_request_id`,
`active_task`). -/
structure Session where
  user_id : String
  created_at : Nat
  last_activity : Nat
  active_request_id : Option String
  active_task : Option TaskId
deriving DecidableEq, Repr

/-- The whole mutable state: `sessions` is `self._sessions`, `tasks` is the
table of live `asyncio.Task` objects, `session_timeout` is
`self._session_timeout`. -/
structure ManagerState where
  sessions : List (String × Session)
  tasks : List (TaskId × TaskState)
  session_timeout : Nat
deriving DecidableEq, Repr

/-- Association-list read (`d[k]` / `d.get(k)`): first binding wins. -/
def getA {α β : Type} [DecidableEq α] : List (α × β) → α → Option β
  | [], _ => none
  | (k, v) :: rest, k0 => if k = k0 then some v else getA rest k0

/-- Association-list write (`d[k] = v`): replaces the first binding of `k`,
or appends when `k` is absent. -/
def setA {α β : Type} [DecidableEq α] : List (α × β) → α → β → List (α × β)
  | [], k0, v0 => [(k0, v0)]
  | (k, v) :: rest, k0, v0 =>
      if k = k0 then (k0, v0) :: rest else (k, v) :: setA rest k0 v0

/-- Association-list delete (`del d[k]`): removes every binding of `k`. -/
def eraseA {α β : Type} [DecidableEq α] : List (α × β) → α → List (α × β)
  | [], _ => []
  | (k, v) :: rest, k0 =>
      if k = k0 then eraseA rest k0 else (k, v) :: eraseA rest k0

/-- `task.done()` read through the task table; a task id absent from the
table is treated as not done. -/
def taskDone (tasks : List (TaskId × TaskState)) (tid : TaskId) : Bool :=
  match getA tasks tid with
  | some t => t.done
  | none => false

/-- `task.cancel()`: mark the task as cancel-requested.  Does not change
`done` — the task unwinds asynchronously. -/
def cancelTask (tasks : List (TaskId × TaskState)) (tid : TaskId) :
    List (TaskId × TaskState) :=
  match getA tasks tid with
  | some t => setA tasks tid { t with cancelRequested := true }
  | none => tasks

/-- `VoiceSessionManager.create_session`: store a fresh session record with
no active request.  The uuid4 `session_id` and utcnow `now` are explicit. -/
def create_session (st : ManagerState) (session_id user_id : String)
    (now : Nat) : ManagerState :=
  { st with
      sessions := setA st.sessions session_id
        { user_id := user_id
          created_at := now
          last_activity := now
          active_request_id := none
          active_task := none } }

/-- `VoiceSessionManager.register_request`: returns the updated state and the
boolean result.  An unknown session returns `false` and leaves the state
untouched; otherwise a still-running previous task is cancel-requested
(barge-in) and the new handle is installed. -/
def register_request (st : ManagerState) (session_id request_id : String)
    (tid : TaskId) (now : Nat) : ManagerState × Bool :=
  match getA st.sessions session_id with
  | none => (st, false)
  | some session =>
    let tasks1 :=
      match session.active_task with
      | some old =>
          if taskDone st.tasks old then st.tasks else cancelTask st.tasks old
      | none => st.tasks
    let session1 :=
      { session with
          active_request_id := some request_id
          active_task := some tid
          last_activity := now }
    ({ st with sessions := setA st.sessions session_id session1,
               tasks := tasks1 }, true)

/-- `VoiceSessionManager.cancel_session_request`: cancel the active request of
a session.  Returns `false` (state unchanged) when the session is unknown or
has no still-running active task. -/
def cancel_session_request (st : ManagerState) (session_id : String)
    (now : Nat) : ManagerState × Bool :=
  match getA st.sessions session_id with
  | none => (st, false)
  | some session =>
    match session.active_task with
    | none => (st, false)
    | some tid =>
      if taskDone st.tasks tid then (st, false)
      else
        let session1 :=
          { session with
              active_request_id := none
              active_task := none
              last_activity := now }
        ({ st with sessions := setA st.sessions session_id session1,
                   tasks := cancelTask st.tasks tid }, true)

/-- `VoiceSessionManager.get_session`. -/
def get_session (st : ManagerState) (session_id : String) : Option Session :=
  getA st.sessions session_id

/-- `VoiceSessionManager.end_session`: cancel a still-running active task and
delete the session.  Returns `false` (state unchanged) when the session is
unknown. -/
def end_session (st : ManagerState) (session_id : String) :
    ManagerState × Bool :=
  match getA st.sessions session_id with
  | none => (st, false)
  | some session =>
    let tasks1 :=
      match session.active_task with
      | some tid =>
          if taskDone st.tasks tid then st.tasks else cancelTask st.tasks tid
      | none => st.tasks
    ({ st with sessions := eraseA st.sessions session_id,
               tasks := tasks1 }, true)

/-- The list comprehension of `cleanup_expired_sessions`: ids of sessions with
`last_activity < now - timeout`, i.e. `last_activity + timeout < now`. -/
def expired_list (st : ManagerState) (now : Nat) : List String :=
  (st.sessions.filter
    (fun p => decide (p.2.last_activity + st.session_timeout < now))).map
    Prod.fst

/-- The `for session_id in expired: self.end_session(session_id)` loop. -/
def removeSessions (st : ManagerState) (l : List String) : ManagerState :=
  l.foldl (fun acc sid => (end_session acc sid).1) st

/-- `VoiceSessionManager.cleanup_expired_sessions`: end every expired session
and return the count of the expired list. -/
def cleanup_expired_sessions (st : ManagerState) (now : Nat) :
    ManagerState × Nat :=
  let expired := expired_list st now
  (removeSessions st expired, expired.length)

/-- `VoiceSessionManager.get_active_session_count`. -/
def get_active_session_count (st : ManagerState) : Nat :=
  st.sessions.length

/-- `VoiceSessionManager.get_active_request_count`: sessions whose
`active_task` is present and not done. -/
def get_active_request_count (st : ManagerState) : Nat :=
  (st.sessions.filter
    (fun p =>
      match p.2.active_task with
      | some tid => !(taskDone st.tasks tid)
      | none => false)).length

/-- `asyncio.create_task`: a fresh task enters the table, running and not
cancel-requested; `owner` is the ghost record of the session it serves. -/
def spawnTask (st : ManagerState) (tid : TaskId) (owner : Option String) :
    ManagerState :=
  { st with
      tasks := setA st.tasks tid
        { done := false, cancelRequested := false, owner := owner } }

/-- Environment step: a task reaches a terminal state (completion, failure,
or cancelled unwind): `task.done()` becomes true. -/
def finishTask (st : ManagerState) (tid : TaskId) : ManagerState :=
  match getA st.tasks tid with
  | some t => { st with tasks := setA st.tasks tid { t with done := true } }
  | none => st

/-- The empty store of `VoiceSessionManager.__init__`. -/
def initState (timeout : Nat) : ManagerState :=
  { sessions := [], tasks := [], session_timeout := timeout }

/-- The non-terminal request handles held by a session record: its
`active_task` slot filtered by `task.done()`. -/
def nonTerminalHeld (st : ManagerState) (s : Session) : List TaskId :=
  match s.active_task with
  | some tid => if taskDone st.tasks tid then [] else [tid]
  | none => []

/-- One atomic step of the system: the manager operations of
`voice_session.py`, task spawn-and-register as done by `voice_query`
(`asyncio.create_task` immediately followed by `register_request`), and the
environment step of a task terminating.  `create` carries the freshness of
uuid4 ids: the new id names no existing session and no task was ever spawned
for it. -/
inductive Step : ManagerState → ManagerState → Prop where
  | create {st : ManagerState} (sid uid : String) (now : Nat)
      (h1 : getA st.sessions sid = none)
      (h2 : ∀ p ∈ st.tasks, (p.2).owner ≠ some sid) :
      Step st (create_session st sid uid now)
  | spawnRegister {st : ManagerState} (sid rid : String) (tid : TaskId)
      (now : Nat) (h : getA st.tasks tid = none) :
      Step st (register_request (spawnTask st tid (some sid)) sid rid tid now).1
  | cancelReq {st : ManagerState} (sid : String) (now : Nat) :
      Step st (cancel_session_request st sid now).1
  | endSess {st : ManagerState} (sid : String) :
      Step st (end_session st sid).1
  | cleanup {st : ManagerState} (now : Nat) :
      Step st (cleanup_expired_sessions st now).1
  | finish {st : ManagerState} (tid : TaskId) :
      Step st (finishTask st tid)

/-- States reachable from a freshly initialised manager. -/
inductive Reachable : ManagerState → Prop where
  | init (timeout : Nat) : Reachable (initState timeout)
  | step {st st1 : ManagerState} : Reachable st → Step st st1 → Reachable st1

/-!
Embedding of the voice pipeline of `backend/app/api/voice.py`.

Each of the three stage ports (`ai_service.transcribe_audio`,
`ai_service.process_voice_query` read through `.get("response")`, and
`ai_service.text_to_speech`) is an awaited call whose outcome we model as a
`StageCall`: it returns an `Option String` (the ports return `Optional[str]`;
for the answer stage the option is the `response` field of the returned
dict), or raises `asyncio.CancelledError` / `asyncio.TimeoutError` / some
other exception while the pipeline task is suspended in it.
-/

/-- Outcome of awaiting one stage port. -/
inductive StageCall where
  | ok (value : Option String)
  | cancelled
  | timeout
  | raised
deriving DecidableEq, Repr

/-- The three pipeline stages. -/
inductive Stage where
  | transcribe
  | answer
  | synthesize
deriving DecidableEq, Repr

/-- Outcome of the inner `process_voice` coroutine: a success dict, an
`HTTPException(code, detail)` raised inside it, or a propagated
cancellation / timeout / unexpected exception. -/
inductive PipelineOutcome where
  | success (query response : String) (audio : Option String)
      (language session_id : String)
  | httpExc (code : Nat) (detail : String)
  | cancelled
  | timeout
  | raised
deriving DecidableEq, Repr

/-- The inner `process_voice` coroutine of `voice_query`: transcribe, check
`if not transcript`; answer, check `if not response_text`; synthesize with no
check on the result; return the result dict.  The second component lists the
stage ports actually awaited. -/
def process_voice (tr ans tts : StageCall) (language session_id : String) :
    PipelineOutcome × List Stage :=
  match tr with
  | .cancelled => (.cancelled, [Stage.transcribe])
  | .timeout => (.timeout, [Stage.transcribe])
  | .raised => (.raised, [Stage.transcribe])
  | .ok none => (.httpExc 500 "Failed to transcribe audio", [Stage.transcribe])
  | .ok (some transcript) =>
    if transcript.isEmpty then
      (.httpExc 500 "Failed to transcribe audio", [Stage.transcribe])
    else
      match ans with
      | .cancelled => (.cancelled, [Stage.transcribe, Stage.answer])
      | .timeout => (.timeout, [Stage.transcribe, Stage.answer])
      | .raised => (.raised, [Stage.transcribe, Stage.answer])
      | .ok none =>
          (.httpExc 500 "Failed to generate response",
           [Stage.transcribe, Stage.answer])
      | .ok (some response_text) =>
        if response_text.isEmpty then
          (.httpExc 500 "Failed to generate response",
           [Stage.transcribe, Stage.answer])
        else
          match tts with
          | .cancelled =>
              (.cancelled, [Stage.transcribe, Stage.answer, Stage.synthesize])
          | .timeout =>
              (.timeout, [Stage.transcribe, Stage.answer, Stage.synthesize])
          | .raised =>
              (.raised, [Stage.transcribe, Stage.answer, Stage.synthesize])
          | .ok audio =>
              (.success transcript response_text audio language session_id,
               [Stage.transcribe, Stage.answer, Stage.synthesize])

/-- What `voice_query` hands back to the HTTP client: the success JSON or an
`HTTPException` status. -/
inductive HttpOutcome where
  | okJson (query response : String) (audio : Option String)
      (language session_id : String)
  | httpErr (code : Nat) (detail : String)
deriving DecidableEq, Repr

/-- The `try / except` ladder of `voice_query` around `await task`:
`CancelledError` becomes 499, `TimeoutError` becomes 504, an inner
`HTTPException` is re-raised unchanged, any other exception becomes 500. -/
def http_boundary : PipelineOutcome → HttpOutcome
  | .success q r a l s => .okJson q r a l s
  | .httpExc c d => .httpErr c d
  | .cancelled => .httpErr 499 "Request cancelled due to barge-in"
  | .timeout => .httpErr 504 "Voice processing timed out"
  | .raised => .httpErr 500 "Voice processing failed"

/-- The session-resolution prologue of `voice_query`: no id, or an id that
does not resolve, silently creates a fresh anonymous session; a resolving id
is used as is.  Returns the updated store and the session id in effect. -/
def resolve_session (st : ManagerState) (session_id : Option String)
    (fresh_sid : String) (now : Nat) : ManagerState × String :=
  match session_id with
  | none => (create_session st fresh_sid "anonymous" now, fresh_sid)
  | some sid =>
    match getA st.sessions sid with
    | none => (create_session st fresh_sid "anonymous" now, fresh_sid)
    | some _ => (st, sid)

/-- The whole `voice_query` handler: resolve the session, spawn the pipeline
task, register it with the session manager, and map the awaited pipeline
outcome through the exception ladder.  The uuid4 `fresh_sid` and
`request_id`, the task id and the timestamp are explicit. -/
def voice_query (st : ManagerState) (session_id : Option String)
    (fresh_sid request_id : String) (tid : TaskId)
    (tr ans tts : StageCall) (language : String) (now : Nat) :
    ManagerState × HttpOutcome :=
  let r1 := resolve_session st session_id fresh_sid now
  let st2 := spawnTask r1.1 tid (some r1.2)
  let st3 := (register_request st2 r1.2 request_id tid now).1
  (st3, http_boundary (process_voice tr ans tts language r1.2).1)

/-!  Basic lemmas about the association-list primitives. -/

theorem getA_setA_self {α β : Type} [DecidableEq α] (l : List (α × β))
    (k : α) (v : β) : getA (setA l k v) k = some v := by
  induction l with
  | nil => simp [setA, getA]
  | cons p rest ih =>
    obtain ⟨k1, v1⟩ := p
    by_cases h : k1 = k
    · simp [setA, getA, h]
    · simp [setA, getA, h, ih]

theorem getA_setA_ne {α β : Type} [DecidableEq α] (l : List (α × β))
    (k k1 : α) (v : β) (h : k1 ≠ k) :
    getA (setA l k v) k1 = getA l k1 := by
  induction l with
  | nil =>
    simp [setA, getA, Ne.symm h]
  | cons p rest ih =>
    obtain ⟨k2, v2⟩ := p
    by_cases h2 : k2 = k
    · subst h2
      simp [setA, getA, Ne.symm h]
    · simp [setA, getA, h2, ih]

theorem getA_setA_cases {α β : Type} [DecidableEq α] {l : List (α × β)}
    {k k1 : α} {v v1 : β} (h : getA (setA l k v) k1 = some v1) :
    (k1 = k ∧ v1 = v) ∨ (k1 ≠ k ∧ getA l k1 = some v1) := by
  by_cases hk : k1 = k
  · subst hk
    rw [getA_setA_self] at h
    exact Or.inl ⟨rfl, (Option.some_inj.mp h).symm⟩
  · rw [getA_setA_ne l k k1 v hk] at h
    exact Or.inr ⟨hk, h⟩

theorem getA_eraseA {α β : Type} [DecidableEq α] (l : List (α × β))
    (k k1 : α) :
    getA (eraseA l k) k1 = if k1 = k then none else getA l k1 := by
  induction l with
  | nil => simp [eraseA, getA]
  | cons p rest ih =>
    obtain ⟨k2, v2⟩ := p
    by_cases h2 : k2 = k
    · subst h2
      by_cases h1 : k1 = k2
      · subst h1
        simp [eraseA, getA, ih]
      · simp [eraseA, getA, h1, Ne.symm h1, ih]
    · by_cases h1 : k1 = k2
      · subst h1
        simp [eraseA, getA, h2, ih]
      · simp [eraseA, getA, h2, Ne.symm h1, ih]

theorem eraseA_of_getA_none {α β : Type} [DecidableEq α] {l : List (α × β)}
    {k : α} (h : getA l k = none) : eraseA l k = l := by
  induction l with
  | nil => rfl
  | cons p rest ih =>
    obtain ⟨k1, v1⟩ := p
    by_cases h1 : k1 = k
    · simp [getA, h1] at h
    · simp [getA, h1] at h
      simp [eraseA, h1, ih h]

theorem getA_cancelTask (tasks : List (TaskId × TaskState)) (k tid : TaskId) :
    getA (cancelTask tasks k) tid =
      if tid = k then
        (getA tasks k).map (fun t => { t with cancelRequested := true })
      else getA tasks tid := by
  unfold cancelTask
  by_cases h : tid = k
  · subst h
    cases hk : getA tasks tid with
    | none => simp [hk]
    | some t => simp [hk, getA_setA_self]
  · cases hk : getA tasks k with
    | none => simp [h]
    | some t => simp [h, getA_setA_ne tasks k tid _ h]

theorem taskDone_cancelTask (tasks : List (TaskId × TaskState))
    (k tid : TaskId) : taskDone (cancelTask tasks k) tid = taskDone tasks tid := by
  unfold taskDone
  rw [getA_cancelTask]
  by_cases h : tid = k
  · subst h
    cases hk : getA tasks tid <;> simp [hk]
  · simp [h]

/-!  Concrete store used by the witness theorems: one session `s1` whose
active request `r1` is task `1`, still running. -/

/-- A session with a running active request. -/
def demoSession : Session :=
  { user_id := "u", created_at := 0, last_activity := 0,
    active_request_id := some "r1", active_task := some 1 }

/-- The running task behind `demoSession`. -/
def demoTask : TaskState :=
  { done := false, cancelRequested := false, owner := some "s1" }

/-- A store holding `demoSession` under id `s1`. -/
def demoSt : ManagerState :=
  { sessions := [("s1", demoSession)], tasks := [(1, demoTask)],
    session_timeout := 300 }

/-- C1: `register_request` on an unknown session returns `false` and leaves
the store untouched; on a known session it returns `true`, replaces the
session's active handle by `{request_id, task}`, updates `last_activity`,
requests cancellation of a still-running previous task, and — fire-and-forget
— changes no task's `done` status (it never waits for the old task to
unwind). -/
theorem register_request_spec (st : ManagerState) (sid rid : String)
    (tid : TaskId) (now : Nat) :
    (getA st.sessions sid = none →
      register_request st sid rid tid now = (st, false)) ∧
    (∀ s, getA st.sessions sid = some s →
      (register_request st sid rid tid now).2 = true ∧
      getA (register_request st sid rid tid now).1.sessions sid =
        some { s with active_request_id := some rid, active_task := some tid,
                      last_activity := now } ∧
      (∀ old t, s.active_task = some old → getA st.tasks old = some t →
        t.done = false →
        getA (register_request st sid rid tid now).1.tasks old =
          some { t with cancelRequested := true }) ∧
      (∀ k, taskDone (register_request st sid rid tid now).1.tasks k =
        taskDone st.tasks k)) := by
  refine ⟨fun h => by simp [register_request, h], fun s hs => ?_⟩
  refine ⟨by simp [register_request, hs], ?_, ?_, ?_⟩
  · simp [register_request, hs, getA_setA_self]
  · intro old t h1 h2 h3
    have hd : taskDone st.tasks old = false := by simp [taskDone, h2, h3]
    simp [register_request, hs, h1, hd, getA_cancelTask, h2]
  · intro k
    cases h1 : s.active_task with
    | none => simp [register_request, hs, h1]
    | some old =>
      by_cases hd : taskDone st.tasks old
      · simp [register_request, hs, h1, hd]
      · simp [register_request, hs, h1, hd, taskDone_cancelTask]

/-- Witness for C1 on the concrete store: registering `r2` over the running
`r1` succeeds, installs the new handle with the new timestamp, and marks task
`1` cancel-requested. -/
theorem register_request_spec_w :
    (register_request demoSt "s1" "r2" 2 5).2 = true ∧
    getA (register_request demoSt "s1" "r2" 2 5).1.sessions "s1" =
      some { demoSession with
             active_request_id := some "r2",
             active_task := some 2,
             last_activity := 5 } ∧
    getA (register_request demoSt "s1" "r2" 2 5).1.tasks 1 =
      some { demoTask with cancelRequested := true } := by
  have h := (register_request_spec demoSt "s1" "r2" 2 5).2 demoSession rfl
  exact ⟨h.1, h.2.1, h.2.2.1 1 demoTask rfl rfl rfl⟩

/-- C5: `cancel_session_request` returns `false` with the store exactly
unchanged when the session is unknown, has no active task, or its active
task is already done; when the active task is still running it requests its
cancellation, clears both handle fields, updates `last_activity`, returns
`true`, and changes no task's `done` status. -/
theorem cancel_session_request_spec (st : ManagerState) (sid : String)
    (now : Nat) :
    (getA st.sessions sid = none →
      cancel_session_request st sid now = (st, false)) ∧
    (∀ s, getA st.sessions sid = some s → s.active_task = none →
      cancel_session_request st sid now = (st, false)) ∧
    (∀ s tid, getA st.sessions sid = some s → s.active_task = some tid →
      taskDone st.tasks tid = true →
      cancel_session_request st sid now = (st, false)) ∧
    (∀ s tid, getA st.sessions sid = some s → s.active_task = some tid →
      taskDone st.tasks tid = false →
      (cancel_session_request st sid now).2 = true ∧
      getA (cancel_session_request st sid now).1.sessions sid =
        some { s with active_request_id := none, active_task := none,
                      last_activity := now } ∧
      (∀ t, getA st.tasks tid = some t →
        getA (cancel_session_request st sid now).1.tasks tid =
          some { t with cancelRequested := true }) ∧
      (∀ k, taskDone (cancel_session_request st sid now).1.tasks k =
        taskDone st.tasks k)) := by
  refine ⟨fun h => by simp [cancel_session_request, h],
          fun s hs h1 => by simp [cancel_session_request, hs, h1],
          fun s tid hs h1 hd => by simp [cancel_session_request, hs, h1, hd],
          fun s tid hs h1 hd => ?_⟩
  refine ⟨by simp [cancel_session_request, hs, h1, hd], ?_, ?_, ?_⟩
  · simp [cancel_session_request, hs, h1, hd, getA_setA_self]
  · intro t h2
    simp [cancel_session_request, hs, h1, hd, getA_cancelTask, h2]
  · intro k
    simp [cancel_session_request, hs, h1, hd, taskDone_cancelTask]

/-- Witness for C5 on the concrete store: cancelling session `s1` succeeds,
clears both handle fields with the new timestamp, and marks task `1`
cancel-requested. -/
theorem cancel_session_request_spec_w :
    (cancel_session_request demoSt "s1" 7).2 = true ∧
    getA (cancel_session_request demoSt "s1" 7).1.sessions "s1" =
      some { demoSession with
             active_request_id := none,
             active_task := none,
             last_activity := 7 } ∧
    getA (cancel_session_request demoSt "s1" 7).1.tasks 1 =
      some { demoTask with cancelRequested := true } := by
  have h :=
    (cancel_session_request_spec demoSt "s1" 7).2.2.2 demoSession 1 rfl rfl rfl
  exact ⟨h.1, h.2.1, h.2.2.1 demoTask rfl⟩

/-- C7: `end_session` on an unknown session returns `false` with the store
unchanged; otherwise it returns `true`, removes the session (other sessions
untouched), requests cancellation of a still-running active task, and — not
blocking on unwind — changes no task's `done` status. -/
theorem end_session_spec (st : ManagerState) (sid : String) :
    (getA st.sessions sid = none → end_session st sid = (st, false)) ∧
    (∀ s, getA st.sessions sid = some s →
      (end_session st sid).2 = true ∧
      getA (end_session st sid).1.sessions sid = none ∧
      (∀ sid1, sid1 ≠ sid →
        getA (end_session st sid).1.sessions sid1 = getA st.sessions sid1) ∧
      (∀ tid t, s.active_task = some tid → getA st.tasks tid = some t →
        t.done = false →
        getA (end_session st sid).1.tasks tid =
          some { t with cancelRequested := true }) ∧
      (∀ k, taskDone (end_session st sid).1.tasks k = taskDone st.tasks k)) := by
  refine ⟨fun h => by simp [end_session, h], fun s hs => ?_⟩
  refine ⟨by simp [end_session, hs], ?_, ?_, ?_, ?_⟩
  · simp [end_session, hs, getA_eraseA]
  · intro sid1 h1
    simp [end_session, hs, getA_eraseA, h1]
  · intro tid t h1 h2 h3
    have hd : taskDone st.tasks tid = false := by simp [taskDone, h2, h3]
    simp [end_session, hs, h1, hd, getA_cancelTask, h2]
  · intro k
    cases h1 : s.active_task with
    | none => simp [end_session, hs, h1]
    | some old =>
      by_cases hd : taskDone st.tasks old
      · simp [end_session, hs, h1, hd]
      · simp [end_session, hs, h1, hd, taskDone_cancelTask]

/-- Witness for C7 on the concrete store: ending session `s1` succeeds,
removes it, and marks its running task `1` cancel-requested. -/
theorem end_session_spec_w :
    (end_session demoSt "s1").2 = true ∧
    getA (end_session demoSt "s1").1.sessions "s1" = none ∧
    getA (end_session demoSt "s1").1.tasks 1 =
      some { demoTask with cancelRequested := true } := by
  have h := (end_session_spec demoSt "s1").2 demoSession rfl
  exact ⟨h.1, h.2.1, h.2.2.2.1 1 demoTask rfl rfl rfl⟩

/-- Python falsiness of an `Optional[str]`: `None` or the empty string. -/
def falsy : Option String → Bool
  | none => true
  | some s => s.isEmpty

/-- Exhaustive shape of a pipeline outcome: cancelled, timeout, or a raised
exception propagate; the only `HTTPException` raised inside `process_voice`
has status 500; a success dict always carries the language and session id the
pipeline was started with. -/
theorem process_voice_shape (tr ans tts : StageCall) (l s : String) :
    (process_voice tr ans tts l s).1 = PipelineOutcome.cancelled ∨
    (process_voice tr ans tts l s).1 = PipelineOutcome.timeout ∨
    (process_voice tr ans tts l s).1 = PipelineOutcome.raised ∨
    (∃ d, (process_voice tr ans tts l s).1 = PipelineOutcome.httpExc 500 d) ∨
    (∃ q r a,
      (process_voice tr ans tts l s).1 = PipelineOutcome.success q r a l s) := by
  cases tr with
  | cancelled => exact Or.inl (by simp [process_voice])
  | timeout => exact Or.inr (Or.inl (by simp [process_voice]))
  | raised => exact Or.inr (Or.inr (Or.inl (by simp [process_voice])))
  | ok v =>
    cases v with
    | none =>
      exact Or.inr (Or.inr (Or.inr (Or.inl
        ⟨"Failed to transcribe audio", by simp [process_voice]⟩)))
    | some t =>
      by_cases ht : t.isEmpty
      · exact Or.inr (Or.inr (Or.inr (Or.inl
          ⟨"Failed to transcribe audio", by simp [process_voice, ht]⟩)))
      · cases ans with
        | cancelled => exact Or.inl (by simp [process_voice, ht])
        | timeout => exact Or.inr (Or.inl (by simp [process_voice, ht]))
        | raised => exact Or.inr (Or.inr (Or.inl (by simp [process_voice, ht])))
        | ok w =>
          cases w with
          | none =>
            exact Or.inr (Or.inr (Or.inr (Or.inl
              ⟨"Failed to generate response", by simp [process_voice, ht]⟩)))
          | some r =>
            by_cases hr : r.isEmpty
            · exact Or.inr (Or.inr (Or.inr (Or.inl
                ⟨"Failed to generate response",
                 by simp [process_voice, ht, hr]⟩)))
            · cases tts with
              | cancelled => exact Or.inl (by simp [process_voice, ht, hr])
              | timeout =>
                exact Or.inr (Or.inl (by simp [process_voice, ht, hr]))
              | raised =>
                exact Or.inr (Or.inr (Or.inl (by simp [process_voice, ht, hr])))
              | ok a =>
                exact Or.inr (Or.inr (Or.inr (Or.inr
                  ⟨t, r, a, by simp [process_voice, ht, hr]⟩)))

/-- Counterexample to C3 as stated: when the synthesize stage returns an
absent result, `process_voice` does not abort with a StageFailure — it
completes as a success dict carrying `audio = none`, which the boundary
serves as an ordinary 200 response (silent fallthrough of the empty
third-stage result into the final output). -/
theorem process_voice_tts_empty_cex :
    (process_voice (StageCall.ok (some "onion price"))
        (StageCall.ok (some "2500 per quintal")) (StageCall.ok none)
        "hi-IN" "s").1 =
      PipelineOutcome.success "onion price" "2500 per quintal" none
        "hi-IN" "s" ∧
    http_boundary (process_voice (StageCall.ok (some "onion price"))
        (StageCall.ok (some "2500 per quintal")) (StageCall.ok none)
        "hi-IN" "s").1 =
      HttpOutcome.okJson "onion price" "2500 per quintal" none "hi-IN" "s" :=
  ⟨by decide, by decide⟩

/-- C3 amended: an empty or absent result of the transcribe or answer stage
aborts the pipeline immediately with the 500 StageFailure and the subsequent
stages are not invoked; the synthesize stage's result is not checked — it is
returned as the `audio` field of the success output whatever it is. -/
theorem stage_empty_spec (tr ans tts : StageCall) (language session_id : String) :
    (∀ v, tr = StageCall.ok v → falsy v = true →
      (process_voice tr ans tts language session_id).1 =
        PipelineOutcome.httpExc 500 "Failed to transcribe audio" ∧
      (process_voice tr ans tts language session_id).2 = [Stage.transcribe]) ∧
    (∀ t v, tr = StageCall.ok (some t) → t.isEmpty = false →
      ans = StageCall.ok v → falsy v = true →
      (process_voice tr ans tts language session_id).1 =
        PipelineOutcome.httpExc 500 "Failed to generate response" ∧
      (process_voice tr ans tts language session_id).2 =
        [Stage.transcribe, Stage.answer]) ∧
    (∀ t r a, tr = StageCall.ok (some t) → t.isEmpty = false →
      ans = StageCall.ok (some r) → r.isEmpty = false →
      tts = StageCall.ok a →
      (process_voice tr ans tts language session_id).1 =
        PipelineOutcome.success t r a language session_id) := by
  refine ⟨?_, ?_, ?_⟩
  · intro v htr hv
    subst htr
    cases v with
    | none => simp [process_voice]
    | some t =>
      have ht : t.isEmpty = true := hv
      simp [process_voice, ht]
  · intro t v htr ht hans hv
    subst htr; subst hans
    cases v with
    | none => simp [process_voice, ht]
    | some r =>
      have hr : r.isEmpty = true := hv
      simp [process_voice, ht, hr]
  · intro t r a htr ht hans hr htts
    subst htr; subst hans; subst htts
    simp [process_voice, ht, hr]

/-- Witness for the amended C3: an absent transcription aborts with the 500
StageFailure before the answer stage is reached. -/
theorem stage_empty_spec_w :
    (process_voice (StageCall.ok none) (StageCall.ok (some "r"))
        (StageCall.ok (some "a")) "hi-IN" "s").1 =
      PipelineOutcome.httpExc 500 "Failed to transcribe audio" ∧
    (process_voice (StageCall.ok none) (StageCall.ok (some "r"))
        (StageCall.ok (some "a")) "hi-IN" "s").2 = [Stage.transcribe] :=
  (stage_empty_spec (StageCall.ok none) (StageCall.ok (some "r"))
    (StageCall.ok (some "a")) "hi-IN" "s").1 none rfl rfl

/-- C4: a cancellation hitting the pipeline while it is suspended in any of
the three stage awaits surfaces as `Cancelled` out of `process_voice`
unchanged — never reclassified as a StageFailure — and the `voice_query`
boundary maps `Cancelled` to HTTP 499; no non-cancelled pipeline outcome is
ever mapped to 499, so the client-interrupted outcome is distinct from every
server error. -/
theorem cancelled_propagation (tr ans tts : StageCall)
    (language session_id : String) :
    (tr = StageCall.cancelled →
      (process_voice tr ans tts language session_id).1 =
        PipelineOutcome.cancelled) ∧
    (∀ t, tr = StageCall.ok (some t) → t.isEmpty = false →
      ans = StageCall.cancelled →
      (process_voice tr ans tts language session_id).1 =
        PipelineOutcome.cancelled) ∧
    (∀ t r, tr = StageCall.ok (some t) → t.isEmpty = false →
      ans = StageCall.ok (some r) → r.isEmpty = false →
      tts = StageCall.cancelled →
      (process_voice tr ans tts language session_id).1 =
        PipelineOutcome.cancelled) ∧
    http_boundary PipelineOutcome.cancelled =
      HttpOutcome.httpErr 499 "Request cancelled due to barge-in" ∧
    ((process_voice tr ans tts language session_id).1 ≠
        PipelineOutcome.cancelled →
      ∀ d, http_boundary (process_voice tr ans tts language session_id).1 ≠
        HttpOutcome.httpErr 499 d) := by
  refine ⟨?_, ?_, ?_, rfl, ?_⟩
  · intro h; subst h; rfl
  · intro t htr ht hans
    subst htr; subst hans
    simp [process_voice, ht]
  · intro t r htr ht hans hr htts
    subst htr; subst hans; subst htts
    simp [process_voice, ht, hr]
  · intro hne d
    rcases process_voice_shape tr ans tts language session_id with
      h | h | h | ⟨d1, h⟩ | ⟨q, r, a, h⟩
    · exact absurd h hne
    · rw [h]; simp [http_boundary]
    · rw [h]; simp [http_boundary]
    · rw [h]; simp [http_boundary]
    · rw [h]; simp [http_boundary]

/-- Witness for C4: a cancellation during the transcribe await yields the
`Cancelled` outcome and HTTP 499 at the boundary. -/
theorem cancelled_propagation_w :
    (process_voice StageCall.cancelled (StageCall.ok none)
        (StageCall.ok none) "hi-IN" "s").1 = PipelineOutcome.cancelled ∧
    http_boundary PipelineOutcome.cancelled =
      HttpOutcome.httpErr 499 "Request cancelled due to barge-in" := by
  have h := cancelled_propagation StageCall.cancelled (StageCall.ok none)
    (StageCall.ok none) "hi-IN" "s"
  exact ⟨h.1 rfl, h.2.2.2.1⟩

/-- The supplied session id does not resolve: it is absent, or names no
session in the store. -/
def sessionUnknown (st : ManagerState) (session_id : Option String) : Prop :=
  match session_id with
  | none => True
  | some sid => getA st.sessions sid = none

/-- C8: a `voice_query` whose supplied session id does not resolve (or which
supplies none) silently creates a fresh anonymous session, registers the
pipeline task under it, proceeds with the pipeline — the HTTP outcome is
exactly the boundary image of the pipeline outcome, no rejection — and any
success result carries the newly created session id. -/
theorem unknown_session_spec (st : ManagerState) (session_id : Option String)
    (fresh_sid request_id : String) (tid : TaskId) (tr ans tts : StageCall)
    (language : String) (now : Nat) (h : sessionUnknown st session_id) :
    (resolve_session st session_id fresh_sid now).2 = fresh_sid ∧
    (∃ s, getA (voice_query st session_id fresh_sid request_id tid
        tr ans tts language now).1.sessions fresh_sid = some s ∧
      s.user_id = "anonymous" ∧
      s.active_request_id = some request_id ∧ s.active_task = some tid) ∧
    (voice_query st session_id fresh_sid request_id tid
        tr ans tts language now).2 =
      http_boundary (process_voice tr ans tts language fresh_sid).1 ∧
    (∀ q r a l s1,
      (voice_query st session_id fresh_sid request_id tid
          tr ans tts language now).2 = HttpOutcome.okJson q r a l s1 →
      s1 = fresh_sid) := by
  have hres : resolve_session st session_id fresh_sid now =
      (create_session st fresh_sid "anonymous" now, fresh_sid) := by
    cases session_id with
    | none => rfl
    | some sid =>
      have hs : getA st.sessions sid = none := h
      simp [resolve_session, hs]
  have hget : getA (create_session st fresh_sid "anonymous" now).sessions
      fresh_sid =
      some { user_id := "anonymous", created_at := now, last_activity := now,
             active_request_id := none, active_task := none } := by
    simp [create_session, getA_setA_self]
  refine ⟨by rw [hres], ?_, ?_, ?_⟩
  · refine ⟨{ user_id := "anonymous", created_at := now, last_activity := now,
              active_request_id := some request_id,
              active_task := some tid }, ?_, rfl, rfl, rfl⟩
    simp only [voice_query, hres]
    simp only [spawnTask, register_request, hget]
    simp [getA_setA_self]
  · simp only [voice_query, hres]
  · intro q r a l s1 heq
    simp only [voice_query, hres] at heq
    rcases process_voice_shape tr ans tts language fresh_sid with
      h1 | h1 | h1 | ⟨d1, h1⟩ | ⟨q1, r1, a1, h1⟩
    · rw [h1] at heq; exact absurd heq (by simp [http_boundary])
    · rw [h1] at heq; exact absurd heq (by simp [http_boundary])
    · rw [h1] at heq; exact absurd heq (by simp [http_boundary])
    · rw [h1] at heq; exact absurd heq (by simp [http_boundary])
    · rw [h1] at heq
      simp [http_boundary] at heq
      exact heq.2.2.2.2.symm

/-- Witness for C8: submitting with the unknown id `unknown-id` against the
concrete store creates fresh session `s9`, registers the request under it,
and a fully successful pipeline returns the new id `s9` in its result. -/
theorem unknown_session_spec_w :
    (∃ s, getA (voice_query demoSt (some "unknown-id") "s9" "r9" 9
        (StageCall.ok (some "q")) (StageCall.ok (some "r"))
        (StageCall.ok (some "a")) "hi-IN" 3).1.sessions "s9" = some s ∧
      s.user_id = "anonymous" ∧
      s.active_request_id = some "r9" ∧ s.active_task = some 9) ∧
    (voice_query demoSt (some "unknown-id") "s9" "r9" 9
        (StageCall.ok (some "q")) (StageCall.ok (some "r"))
        (StageCall.ok (some "a")) "hi-IN" 3).2 =
      HttpOutcome.okJson "q" "r" (some "a") "hi-IN" "s9" := by
  have h := unknown_session_spec demoSt (some "unknown-id") "s9" "r9" 9
    (StageCall.ok (some "q")) (StageCall.ok (some "r"))
    (StageCall.ok (some "a")) "hi-IN" 3
    (show getA demoSt.sessions "unknown-id" = none by rfl)
  refine ⟨h.2.1, ?_⟩
  rw [h.2.2.1]
  decide

/-!  Invariant machinery for the reachable-state claims. -/

theorem mem_of_getA {α β : Type} [DecidableEq α] {l : List (α × β)} {k : α}
    {v : β} (h : getA l k = some v) : (k, v) ∈ l := by
  induction l with
  | nil => simp [getA] at h
  | cons p rest ih =>
    obtain ⟨k1, v1⟩ := p
    by_cases h1 : k1 = k
    · subst h1
      simp [getA] at h
      rw [← h]
      exact List.mem_cons_self _ _
    · simp [getA, h1] at h
      exact List.mem_cons_of_mem _ (ih h)

/-- A task read back without a cancellation mark was already in the table
unchanged: `cancelTask` only sets `cancelRequested`. -/
theorem live_of_cancelTask {tasks : List (TaskId × TaskState)}
    {old tid : TaskId} {t : TaskState}
    (h : getA (cancelTask tasks old) tid = some t)
    (hc : t.cancelRequested = false) : getA tasks tid = some t := by
  rw [getA_cancelTask] at h
  by_cases he : tid = old
  · subst he
    cases hg : getA tasks tid with
    | none => rw [hg] at h; simp at h
    | some t0 =>
      rw [hg] at h
      simp at h
      rw [← h] at hc
      simp at hc
  · simpa [he] using h

/-- The inductive invariant: (1) every running, never-cancel-requested task
owned by a stored session is exactly that session's `active_task` slot —
hence a session never has two live pipeline tasks; (2) in every stored
session the request id and the task are absent together. -/
def Inv (st : ManagerState) : Prop :=
  (∀ sid s, getA st.sessions sid = some s →
    ∀ tid t, getA st.tasks tid = some t →
      t.owner = some sid → t.done = false → t.cancelRequested = false →
      s.active_task = some tid) ∧
  (∀ sid s, getA st.sessions sid = some s →
    (s.active_request_id = none ↔ s.active_task = none))

theorem inv_init (timeout : Nat) : Inv (initState timeout) := by
  constructor
  · intro sid s hs
    simp [initState, getA] at hs
  · intro sid s hs
    simp [initState, getA] at hs

theorem inv_create (st : ManagerState) (sid uid : String) (now : Nat)
    (h1 : getA st.sessions sid = none)
    (h2 : ∀ p ∈ st.tasks, (p.2).owner ≠ some sid) (hinv : Inv st) :
    Inv (create_session st sid uid now) := by
  constructor
  · intro sid1 s1 hs1 tid t ht ho hd hc
    have ht' : getA st.tasks tid = some t := ht
    rcases getA_setA_cases hs1 with ⟨rfl, rfl⟩ | ⟨hne, hs1'⟩
    · exact absurd ho (h2 (tid, t) (mem_of_getA ht'))
    · exact hinv.1 sid1 s1 hs1' tid t ht' ho hd hc
  · intro sid1 s1 hs1
    rcases getA_setA_cases hs1 with ⟨rfl, rfl⟩ | ⟨hne, hs1'⟩
    · simp
    · exact hinv.2 sid1 s1 hs1'

theorem inv_end_session (st : ManagerState) (sid : String) (hinv : Inv st) :
    Inv (end_session st sid).1 := by
  cases hs : getA st.sessions sid with
  | none =>
    simpa [end_session, hs] using hinv
  | some s =>
    have hsessEq : (end_session st sid).1.sessions = eraseA st.sessions sid := by
      simp [end_session, hs]
    have htaskEq : (end_session st sid).1.tasks =
        (match s.active_task with
         | some old =>
             if taskDone st.tasks old then st.tasks
             else cancelTask st.tasks old
         | none => st.tasks) := by
      simp [end_session, hs]
    constructor
    · intro sid1 s1 hs1 tid t ht ho hd hc
      rw [hsessEq, getA_eraseA] at hs1
      by_cases hne : sid1 = sid
      · simp [hne] at hs1
      · rw [if_neg hne] at hs1
        rw [htaskEq] at ht
        have ht' : getA st.tasks tid = some t := by
          cases hat : s.active_task with
          | none => simp only [hat] at ht; exact ht
          | some old =>
            simp only [hat] at ht
            by_cases hdo : taskDone st.tasks old
            · rw [if_pos hdo] at ht; exact ht
            · rw [if_neg hdo] at ht; exact live_of_cancelTask ht hc
        exact hinv.1 sid1 s1 hs1 tid t ht' ho hd hc
    · intro sid1 s1 hs1
      rw [hsessEq, getA_eraseA] at hs1
      by_cases hne : sid1 = sid
      · simp [hne] at hs1
      · rw [if_neg hne] at hs1
        exact hinv.2 sid1 s1 hs1

theorem inv_cancel_session_request (st : ManagerState) (sid : String)
    (now : Nat) (hinv : Inv st) : Inv (cancel_session_request st sid now).1 := by
  cases hs : getA st.sessions sid with
  | none => simpa [cancel_session_request, hs] using hinv
  | some s =>
    cases hat : s.active_task with
    | none => simpa [cancel_session_request, hs, hat] using hinv
    | some tid0 =>
      by_cases hdo : taskDone st.tasks tid0
      · simpa [cancel_session_request, hs, hat, hdo] using hinv
      · have hsessEq : (cancel_session_request st sid now).1.sessions =
            setA st.sessions sid
              { s with active_request_id := none, active_task := none,
                       last_activity := now } := by
          simp [cancel_session_request, hs, hat, hdo]
        have htaskEq : (cancel_session_request st sid now).1.tasks =
            cancelTask st.tasks tid0 := by
          simp [cancel_session_request, hs, hat, hdo]
        constructor
        · intro sid1 s1 hs1 tid t ht ho hd hc
          rw [hsessEq] at hs1
          rw [htaskEq] at ht
          have ht' : getA st.tasks tid = some t := live_of_cancelTask ht hc
          rcases getA_setA_cases hs1 with ⟨rfl, rfl⟩ | ⟨hne, hs1'⟩
          · exfalso
            have hact := hinv.1 _ s hs tid t ht' ho hd hc
            rw [hat] at hact
            have htid : tid = tid0 := (Option.some.inj hact).symm
            subst htid
            rw [getA_cancelTask] at ht
            simp at ht
            cases hg : getA st.tasks tid with
            | none => rw [hg] at ht; simp at ht
            | some t0 =>
              rw [hg] at ht
              simp at ht
              rw [← ht] at hc
              simp at hc
          · exact hinv.1 sid1 s1 hs1' tid t ht' ho hd hc
        · intro sid1 s1 hs1
          rw [hsessEq] at hs1
          rcases getA_setA_cases hs1 with ⟨rfl, rfl⟩ | ⟨hne, hs1'⟩
          · simp
          · exact hinv.2 sid1 s1 hs1'

theorem inv_spawn_register (st : ManagerState) (sid rid : String)
    (tid : TaskId) (now : Nat) (hfresh : getA st.tasks tid = none)
    (hinv : Inv st) :
    Inv (register_request (spawnTask st tid (some sid)) sid rid tid now).1 := by
  cases hs : getA st.sessions sid with
  | none =>
    have hred : (register_request (spawnTask st tid (some sid))
        sid rid tid now).1 = spawnTask st tid (some sid) := by
      simp [register_request, spawnTask, hs]
    rw [hred]
    constructor
    · intro sid1 s1 hs1 tid1 t ht ho hd hc
      have hs1' : getA st.sessions sid1 = some s1 := hs1
      have ht' : getA (setA st.tasks tid
          { done := false, cancelRequested := false, owner := some sid })
          tid1 = some t := ht
      rcases getA_setA_cases ht' with ⟨rfl, rfl⟩ | ⟨hne, ht2⟩
      · obtain rfl : sid = sid1 := by simpa using ho
        rw [hs] at hs1'
        exact Option.noConfusion hs1'
      · exact hinv.1 sid1 s1 hs1' tid1 t ht2 ho hd hc
    · intro sid1 s1 hs1
      exact hinv.2 sid1 s1 hs1
  | some s =>
    have hs' : getA (spawnTask st tid (some sid)).sessions sid = some s := hs
    have hsessEq : (register_request (spawnTask st tid (some sid))
        sid rid tid now).1.sessions =
        setA st.sessions sid
          { s with active_request_id := some rid, active_task := some tid,
                   last_activity := now } := by
      simp [register_request, spawnTask, hs]
    have htaskEq : (register_request (spawnTask st tid (some sid))
        sid rid tid now).1.tasks =
        (match s.active_task with
         | some old =>
             if taskDone (setA st.tasks tid
                 { done := false, cancelRequested := false,
                   owner := some sid }) old
             then setA st.tasks tid
                 { done := false, cancelRequested := false, owner := some sid }
             else cancelTask (setA st.tasks tid
                 { done := false, cancelRequested := false,
                   owner := some sid }) old
         | none => setA st.tasks tid
             { done := false, cancelRequested := false, owner := some sid }) := by
      simp [register_request, spawnTask, hs]
    constructor
    · intro sid1 s1 hs1 tid1 t ht ho hd hc
      rw [hsessEq] at hs1
      rw [htaskEq] at ht
      have ht1 : getA (setA st.tasks tid
          { done := false, cancelRequested := false, owner := some sid })
          tid1 = some t := by
        cases hat : s.active_task with
        | none => simp only [hat] at ht; exact ht
        | some old =>
          simp only [hat] at ht
          by_cases hdo : taskDone (setA st.tasks tid
              { done := false, cancelRequested := false,
                owner := some sid }) old
          · rw [if_pos hdo] at ht; exact ht
          · rw [if_neg hdo] at ht; exact live_of_cancelTask ht hc
      rcases getA_setA_cases ht1 with ⟨rfl, rfl⟩ | ⟨hne, ht2⟩
      · rcases getA_setA_cases hs1 with ⟨rfl, rfl⟩ | ⟨hne2, hs1'⟩
        · rfl
        · obtain rfl : sid = sid1 := by simpa using ho
          exact absurd rfl hne2
      · rcases getA_setA_cases hs1 with ⟨he2, hv2⟩ | ⟨hne2, hs1'⟩
        · exfalso
          rw [he2] at ho
          have hact := hinv.1 sid s hs tid1 t ht2 ho hd hc
          simp only [hact] at ht
          have hdo : taskDone (setA st.tasks tid
              { done := false, cancelRequested := false,
                owner := some sid }) tid1 = false := by
            unfold taskDone
            rw [getA_setA_ne st.tasks tid tid1 _ hne, ht2]
            exact hd
          rw [hdo] at ht
          simp at ht
          rw [getA_cancelTask] at ht
          simp at ht
          rw [getA_setA_ne st.tasks tid tid1 _ hne, ht2] at ht
          simp at ht
          rw [← ht] at hc
          simp at hc
        · exact hinv.1 sid1 s1 hs1' tid1 t (by
            rcases getA_setA_cases ht1 with ⟨rfl, rfl⟩ | ⟨_, ht3⟩
            · exact absurd rfl hne
            · exact ht3) ho hd hc
    · intro sid1 s1 hs1
      rw [hsessEq] at hs1
      rcases getA_setA_cases hs1 with ⟨rfl, rfl⟩ | ⟨hne, hs1'⟩
      · simp
      · exact hinv.2 sid1 s1 hs1'

theorem inv_finishTask (st : ManagerState) (tid : TaskId) (hinv : Inv st) :
    Inv (finishTask st tid) := by
  cases hg : getA st.tasks tid with
  | none => simpa [finishTask, hg] using hinv
  | some t0 =>
    have hsessEq : (finishTask st tid).sessions = st.sessions := by
      simp [finishTask, hg]
    have htaskEq : (finishTask st tid).tasks =
        setA st.tasks tid { t0 with done := true } := by
      simp [finishTask, hg]
    constructor
    · intro sid1 s1 hs1 tid1 t ht ho hd hc
      rw [hsessEq] at hs1
      rw [htaskEq] at ht
      rcases getA_setA_cases ht with ⟨rfl, rfl⟩ | ⟨hne, ht'⟩
      · simp at hd
      · exact hinv.1 sid1 s1 hs1 tid1 t ht' ho hd hc
    · intro sid1 s1 hs1
      rw [hsessEq] at hs1
      exact hinv.2 sid1 s1 hs1

theorem inv_removeSessions (l : List String) :
    ∀ st : ManagerState, Inv st → Inv (removeSessions st l) := by
  induction l with
  | nil => intro st hinv; exact hinv
  | cons a rest ih =>
    intro st hinv
    exact ih (end_session st a).1 (inv_end_session st a hinv)

theorem inv_cleanup (st : ManagerState) (now : Nat) (hinv : Inv st) :
    Inv (cleanup_expired_sessions st now).1 :=
  inv_removeSessions (expired_list st now) st hinv

theorem inv_step {st st1 : ManagerState} (h : Step st st1) (hinv : Inv st) :
    Inv st1 := by
  cases h with
  | create sid uid now h1 h2 => exact inv_create st sid uid now h1 h2 hinv
  | spawnRegister sid rid tid now h =>
      exact inv_spawn_register st sid rid tid now h hinv
  | cancelReq sid now => exact inv_cancel_session_request st sid now hinv
  | endSess sid => exact inv_end_session st sid hinv
  | cleanup now => exact inv_cleanup st now hinv
  | finish tid => exact inv_finishTask st tid hinv

theorem inv_reachable {st : ManagerState} (h : Reachable st) : Inv st := by
  induction h with
  | init timeout => exact inv_init timeout
  | step _ hstep ih => exact inv_step hstep ih

/-- C2: in every reachable store state, every stored session holds at most
one non-terminal request handle — its single `active_task` slot filtered by
`task.done()` — and moreover every running task of that session on which
cancellation was never requested is exactly the slot task, so barge-in never
leaves two live pipeline tasks for one session. -/
theorem at_most_one_nonterminal (st : ManagerState) (h : Reachable st) :
    ∀ sid s, getA st.sessions sid = some s →
      (nonTerminalHeld st s).length ≤ 1 ∧
      (∀ tid t, getA st.tasks tid = some t → t.owner = some sid →
        t.done = false → t.cancelRequested = false →
        s.active_task = some tid) := by
  intro sid s hs
  refine ⟨?_, fun tid t ht ho hd hc =>
    (inv_reachable h).1 sid s hs tid t ht ho hd hc⟩
  unfold nonTerminalHeld
  cases s.active_task with
  | none => simp
  | some tid => by_cases hd : taskDone st.tasks tid <;> simp [hd]

/-- First reachable demo state: one freshly created session `a`. -/
def reach1 : ManagerState := create_session (initState 300) "a" "u" 0

/-- Second reachable demo state: request `rq` (task `5`) registered in
session `a`. -/
def reach2 : ManagerState :=
  (register_request (spawnTask reach1 5 (some "a")) "a" "rq" 5 0).1

/-- The session record of `a` inside `reach2`. -/
def reachSession : Session :=
  { user_id := "u", created_at := 0, last_activity := 0,
    active_request_id := some "rq", active_task := some 5 }

theorem reach1_reachable : Reachable reach1 :=
  Reachable.step (Reachable.init 300)
    (Step.create "a" "u" 0 rfl (by intro p hp; simp [initState] at hp))

theorem reach2_reachable : Reachable reach2 :=
  Reachable.step reach1_reachable (Step.spawnRegister "a" "rq" 5 0 rfl)

/-- Witness for C2 at the reachable state `reach2`: session `a` holds at
most one non-terminal handle, and its only live task is its slot task `5`. -/
theorem at_most_one_nonterminal_w :
    (nonTerminalHeld reach2 reachSession).length ≤ 1 ∧
    reachSession.active_task = some 5 := by
  have h := at_most_one_nonterminal reach2 reach2_reachable "a" reachSession
    (by decide)
  exact ⟨h.1, h.2 5 ⟨false, false, some "a"⟩ (by decide) rfl rfl rfl⟩

/-- C10: in every reachable store state, every stored session has its
`active_request_id` absent exactly when its `active_task` is absent — the
operations set and clear the two fields together. -/
theorem id_task_aligned (st : ManagerState) (h : Reachable st) :
    ∀ sid s, getA st.sessions sid = some s →
      (s.active_request_id = none ↔ s.active_task = none) :=
  fun sid s hs => (inv_reachable h).2 sid s hs

/-- Witness for C10 at the reachable state `reach2`: session `a` has both a
request id and a task. -/
theorem id_task_aligned_w :
    (reachSession.active_request_id = none ↔ reachSession.active_task = none) :=
  id_task_aligned reach2 reach2_reachable "a" reachSession (by decide)

/-- C9: `get_active_session_count` is the number of session records in the
store (three right after three creations on an empty store), and
`get_active_request_count` is the number of sessions holding a non-terminal
handle at the moment of the call (one while `reach2`'s task `5` runs, zero
once it finishes). -/
theorem stats_spec (st : ManagerState) :
    get_active_session_count st = st.sessions.length ∧
    get_active_request_count st =
      (st.sessions.filter
        (fun p => !(nonTerminalHeld st p.2).isEmpty)).length ∧
    get_active_session_count
      (create_session (create_session (create_session (initState 300)
        "a" "u" 0) "b" "u" 0) "c" "u" 0) = 3 ∧
    get_active_request_count reach2 = 1 ∧
    get_active_request_count (finishTask reach2 5) = 0 := by
  refine ⟨rfl, ?_, by decide, by decide, by decide⟩
  unfold get_active_request_count
  congr 1
  apply List.filter_congr
  intro p hp
  cases hat : p.2.active_task with
  | none => simp [nonTerminalHeld, hat]
  | some tid =>
    by_cases hd : taskDone st.tasks tid
    · simp [nonTerminalHeld, hat, hd]
    · simp [nonTerminalHeld, hat, hd]

/-!  Lemmas about the expiry sweep. -/

theorem end_session_sessions (st : ManagerState) (k : String) :
    (end_session st k).1.sessions = eraseA st.sessions k := by
  cases hs : getA st.sessions k with
  | none =>
    simp only [end_session, hs]
    rw [eraseA_of_getA_none hs]
  | some s => simp [end_session, hs]

theorem removeSessions_sessions (l : List String) :
    ∀ st : ManagerState, (removeSessions st l).sessions =
      l.foldl (fun acc k => eraseA acc k) st.sessions := by
  induction l with
  | nil => intro st; rfl
  | cons a rest ih =>
    intro st
    show (removeSessions (end_session st a).1 rest).sessions = _
    rw [ih, end_session_sessions]
    rfl

theorem getA_foldl_eraseA_of_none {α β : Type} [DecidableEq α] (l : List α) :
    ∀ (xs : List (α × β)) (k : α), getA xs k = none →
      getA (l.foldl (fun acc k1 => eraseA acc k1) xs) k = none := by
  induction l with
  | nil => intro xs k h; exact h
  | cons a rest ih =>
    intro xs k h
    apply ih
    rw [getA_eraseA]
    by_cases hk : k = a
    · simp [hk]
    · simp [hk, h]

theorem getA_foldl_eraseA_mem {α β : Type} [DecidableEq α] (l : List α) :
    ∀ (xs : List (α × β)) (k : α), k ∈ l →
      getA (l.foldl (fun acc k1 => eraseA acc k1) xs) k = none := by
  induction l with
  | nil => intro xs k h; exact absurd h (List.not_mem_nil k)
  | cons a rest ih =>
    intro xs k h
    by_cases hk : k = a
    · show getA (rest.foldl (fun acc k1 => eraseA acc k1) (eraseA xs a)) k = none
      apply getA_foldl_eraseA_of_none
      rw [getA_eraseA]
      simp [hk]
    · rcases List.mem_cons.mp h with h1 | h1
      · exact absurd h1 hk
      · exact ih (eraseA xs a) k h1

theorem getA_foldl_eraseA_not_mem {α β : Type} [DecidableEq α] (l : List α) :
    ∀ (xs : List (α × β)) (k : α), k ∉ l →
      getA (l.foldl (fun acc k1 => eraseA acc k1) xs) k = getA xs k := by
  induction l with
  | nil => intro xs k _; rfl
  | cons a rest ih =>
    intro xs k h
    have hka : k ≠ a := fun he => h (he ▸ List.mem_cons_self a rest)
    have hrest : k ∉ rest := fun hm => h (List.mem_cons_of_mem a hm)
    rw [show (a :: rest).foldl (fun acc k1 => eraseA acc k1) xs =
          rest.foldl (fun acc k1 => eraseA acc k1) (eraseA xs a) from rfl,
        ih (eraseA xs a) k hrest, getA_eraseA]
    simp [hka]

theorem eraseA_sublist {α β : Type} [DecidableEq α] (l : List (α × β))
    (k : α) : List.Sublist (eraseA l k) l := by
  induction l with
  | nil => exact List.Sublist.refl []
  | cons p rest ih =>
    obtain ⟨k1, v1⟩ := p
    by_cases h1 : k1 = k
    · simp only [eraseA, h1, if_pos rfl]
      exact List.Sublist.cons _ ih
    · simp only [eraseA, h1, if_neg h1]
      exact List.Sublist.cons₂ _ ih

theorem getA_eq_none_of_not_mem_keys {α β : Type} [DecidableEq α]
    {l : List (α × β)} {k : α} (h : k ∉ l.map Prod.fst) : getA l k = none := by
  induction l with
  | nil => rfl
  | cons p rest ih =>
    obtain ⟨k1, v1⟩ := p
    have hk1 : k1 ≠ k := fun he => h (by simp [he])
    have hrest : k ∉ rest.map Prod.fst := fun hm => h (by simp [hm])
    simp [getA, hk1, ih hrest]

theorem length_eraseA {α β : Type} [DecidableEq α] :
    ∀ {l : List (α × β)} {k : α} {v : β}, (l.map Prod.fst).Nodup →
      getA l k = some v → (eraseA l k).length + 1 = l.length := by
  intro l
  induction l with
  | nil => intro k v _ h; simp [getA] at h
  | cons p rest ih =>
    intro k v hnd h
    obtain ⟨k1, v1⟩ := p
    have hnd1 := List.nodup_cons.mp hnd
    by_cases h1 : k1 = k
    · subst h1
      have hnone : getA rest k1 = none :=
        getA_eq_none_of_not_mem_keys hnd1.1
      rw [show eraseA ((k1, v1) :: rest) k1 = eraseA rest k1 from by
            simp [eraseA]]
      rw [eraseA_of_getA_none hnone]
      simp
    · rw [show getA ((k1, v1) :: rest) k = getA rest k from by
            simp [getA, h1]] at h
      rw [show eraseA ((k1, v1) :: rest) k = (k1, v1) :: eraseA rest k from by
            simp [eraseA, h1]]
      have hrec := ih hnd1.2 h
      simp only [List.length_cons]
      omega

theorem keysNodup_eraseA {α β : Type} [DecidableEq α] {l : List (α × β)}
    (k : α) (hnd : (l.map Prod.fst).Nodup) :
    ((eraseA l k).map Prod.fst).Nodup :=
  hnd.sublist ((eraseA_sublist l k).map Prod.fst)

theorem foldl_eraseA_length {α β : Type} [DecidableEq α] (l : List α) :
    ∀ xs : List (α × β), (xs.map Prod.fst).Nodup → l.Nodup →
      (∀ k ∈ l, ∃ v, getA xs k = some v) →
      (l.foldl (fun acc k1 => eraseA acc k1) xs).length + l.length =
        xs.length := by
  induction l with
  | nil => intro xs _ _ _; simp
  | cons a rest ih =>
    intro xs hnd hl hpres
    obtain ⟨v, hv⟩ := hpres a (List.mem_cons_self a rest)
    have hlen : (eraseA xs a).length + 1 = xs.length := length_eraseA hnd hv
    have hl1 := List.nodup_cons.mp hl
    have hpres1 : ∀ k ∈ rest, ∃ v1, getA (eraseA xs a) k = some v1 := by
      intro k hk
      have hka : k ≠ a := fun he => hl1.1 (he ▸ hk)
      obtain ⟨v1, hv1⟩ := hpres k (List.mem_cons_of_mem a hk)
      refine ⟨v1, ?_⟩
      rw [getA_eraseA]
      simp [hka, hv1]
    have hrec := ih (eraseA xs a) (keysNodup_eraseA a hnd) hl1.2 hpres1
    show (rest.foldl (fun acc k1 => eraseA acc k1) (eraseA xs a)).length +
      (rest.length + 1) = xs.length
    omega

theorem getA_of_mem_nodup {α β : Type} [DecidableEq α] :
    ∀ {l : List (α × β)} {k : α} {v : β}, (l.map Prod.fst).Nodup →
      (k, v) ∈ l → getA l k = some v := by
  intro l
  induction l with
  | nil => intro k v _ h; exact absurd h (List.not_mem_nil _)
  | cons p rest ih =>
    intro k v hnd h
    obtain ⟨k1, v1⟩ := p
    have hnd1 := List.nodup_cons.mp hnd
    rcases List.mem_cons.mp h with h1 | h1
    · injection h1 with hk hv
      subst hk; subst hv
      simp [getA]
    · by_cases hk : k1 = k
      · exact absurd (hk ▸ (List.mem_map.mpr ⟨(k, v), h1, rfl⟩)) hnd1.1
      · rw [show getA ((k1, v1) :: rest) k = getA rest k from by
              simp [getA, hk]]
        exact ih hnd1.2 h1

theorem getA_isSome_of_mem {α β : Type} [DecidableEq α] :
    ∀ {l : List (α × β)} {k : α} {v : β}, (k, v) ∈ l →
      ∃ v1, getA l k = some v1 := by
  intro l
  induction l with
  | nil => intro k v h; exact absurd h (List.not_mem_nil _)
  | cons p rest ih =>
    intro k v h
    obtain ⟨k1, v1⟩ := p
    by_cases h1 : k1 = k
    · exact ⟨v1, by simp [getA, h1]⟩
    · rcases List.mem_cons.mp h with h2 | h2
      · exact absurd (congrArg Prod.fst h2.symm) h1
      · obtain ⟨v2, hv2⟩ := ih h2
        exact ⟨v2, by simp [getA, h1, hv2]⟩

/-- Evolution of the task table under the sweep: entries survive with their
`done` flag intact and a cancellation mark is never removed. -/
def tasksEvolve (a b : List (TaskId × TaskState)) : Prop :=
  ∀ tid t, getA a tid = some t →
    ∃ t1, getA b tid = some t1 ∧ t1.done = t.done ∧
      (t.cancelRequested = true → t1.cancelRequested = true)

theorem tasksEvolve_refl (a : List (TaskId × TaskState)) : tasksEvolve a a :=
  fun _ t h => ⟨t, h, rfl, fun hc => hc⟩

theorem tasksEvolve_trans {a b c : List (TaskId × TaskState)}
    (h1 : tasksEvolve a b) (h2 : tasksEvolve b c) : tasksEvolve a c := by
  intro tid t h
  obtain ⟨t1, hb, hd1, hc1⟩ := h1 tid t h
  obtain ⟨t2, hcc, hd2, hc2⟩ := h2 tid t1 hb
  exact ⟨t2, hcc, hd2.trans hd1, fun hc => hc2 (hc1 hc)⟩

theorem tasksEvolve_cancelTask (a : List (TaskId × TaskState)) (k : TaskId) :
    tasksEvolve a (cancelTask a k) := by
  intro tid t h
  by_cases he : tid = k
  · subst he
    refine ⟨{ t with cancelRequested := true }, ?_, rfl, fun _ => rfl⟩
    rw [getA_cancelTask, if_pos rfl, h]
    rfl
  · refine ⟨t, ?_, rfl, fun hc => hc⟩
    rw [getA_cancelTask, if_neg he]
    exact h

theorem tasksEvolve_end_session (st : ManagerState) (k : String) :
    tasksEvolve st.tasks ((end_session st k).1).tasks := by
  cases hs : getA st.sessions k with
  | none =>
    have : ((end_session st k).1).tasks = st.tasks := by simp [end_session, hs]
    rw [this]
    exact tasksEvolve_refl _
  | some s =>
    cases hat : s.active_task with
    | none =>
      have : ((end_session st k).1).tasks = st.tasks := by
        simp [end_session, hs, hat]
      rw [this]
      exact tasksEvolve_refl _
    | some old =>
      by_cases hdo : taskDone st.tasks old
      · have : ((end_session st k).1).tasks = st.tasks := by
          simp [end_session, hs, hat, hdo]
        rw [this]
        exact tasksEvolve_refl _
      · have : ((end_session st k).1).tasks = cancelTask st.tasks old := by
          simp [end_session, hs, hat, hdo]
        rw [this]
        exact tasksEvolve_cancelTask _ _

theorem tasksEvolve_removeSessions (l : List String) :
    ∀ st : ManagerState, tasksEvolve st.tasks (removeSessions st l).tasks := by
  induction l with
  | nil => intro st; exact tasksEvolve_refl _
  | cons a rest ih =>
    intro st
    exact tasksEvolve_trans (tasksEvolve_end_session st a)
      (ih (end_session st a).1)

/-- An ended session's still-running task is marked cancel-requested in the
resulting task table. -/
theorem end_session_cancel_helper (st : ManagerState) (sid : String)
    (s : Session) (tid : TaskId) (t : TaskState)
    (hs : getA st.sessions sid = some s) (hat : s.active_task = some tid)
    (ht : getA st.tasks tid = some t) (hd : t.done = false) :
    getA ((end_session st sid).1).tasks tid =
      some { t with cancelRequested := true } := by
  have hdo : taskDone st.tasks tid = false := by
    unfold taskDone
    rw [ht]
    exact hd
  simp [end_session, hs, hat, hdo, getA_cancelTask, ht]

theorem expired_list_nodup (st : ManagerState) (now : Nat)
    (hnd : (st.sessions.map Prod.fst).Nodup) : (expired_list st now).Nodup :=
  hnd.sublist ((List.filter_sublist st.sessions).map Prod.fst)

theorem mem_expired_exists (st : ManagerState) (now : Nat) {sid : String}
    (h : sid ∈ expired_list st now) : ∃ v, getA st.sessions sid = some v := by
  unfold expired_list at h
  obtain ⟨p, hp, hfst⟩ := List.mem_map.mp h
  have hmem : p ∈ st.sessions := List.mem_of_mem_filter hp
  subst hfst
  exact getA_isSome_of_mem (l := st.sessions) (k := p.1) (v := p.2) hmem

theorem mem_expired_iff (st : ManagerState) (now : Nat)
    (hnd : (st.sessions.map Prod.fst).Nodup) {sid : String} {s : Session}
    (hs : getA st.sessions sid = some s) :
    (sid ∈ expired_list st now ↔
      s.last_activity + st.session_timeout < now) := by
  constructor
  · intro h
    unfold expired_list at h
    obtain ⟨p, hp, hfst⟩ := List.mem_map.mp h
    have hp1 := List.mem_filter.mp hp
    have hgp : getA st.sessions p.1 = some p.2 :=
      getA_of_mem_nodup hnd hp1.1
    rw [hfst, hs] at hgp
    have hps : p.2 = s := (Option.some.inj hgp).symm
    have hcond := of_decide_eq_true hp1.2
    rw [hps] at hcond
    exact hcond
  · intro h
    unfold expired_list
    exact List.mem_map.mpr
      ⟨(sid, s), List.mem_filter.mpr ⟨mem_of_getA hs, decide_eq_true h⟩, rfl⟩

/-- C6: `cleanup_expired_sessions` removes exactly the sessions with
`now − last_activity > timeout` (fresh sessions survive unchanged), its
return value counts the removed sessions, and — removal going through
`end_session` — a removed session's still-running task carries a
cancellation request in the final task table.  The hypothesis that the
session keys are distinct is the dict invariant of `self._sessions`. -/
theorem cleanup_expired_spec (st : ManagerState) (now : Nat)
    (hnd : (st.sessions.map Prod.fst).Nodup) :
    (∀ sid s, getA st.sessions sid = some s →
      (s.last_activity + st.session_timeout < now →
        getA (cleanup_expired_sessions st now).1.sessions sid = none) ∧
      (¬ s.last_activity + st.session_timeout < now →
        getA (cleanup_expired_sessions st now).1.sessions sid = some s)) ∧
    (cleanup_expired_sessions st now).1.sessions.length +
      (cleanup_expired_sessions st now).2 = st.sessions.length ∧
    (∀ sid s, getA st.sessions sid = some s →
      s.last_activity + st.session_timeout < now →
      ∀ tid t, s.active_task = some tid → getA st.tasks tid = some t →
        t.done = false →
        ∃ t1, getA (cleanup_expired_sessions st now).1.tasks tid = some t1 ∧
          t1.cancelRequested = true) := by
  have hsess : (cleanup_expired_sessions st now).1.sessions =
      (expired_list st now).foldl (fun acc k => eraseA acc k) st.sessions :=
    removeSessions_sessions (expired_list st now) st
  refine ⟨?_, ?_, ?_⟩
  · intro sid s hs
    constructor
    · intro hexp
      rw [hsess]
      exact getA_foldl_eraseA_mem _ _ _
        ((mem_expired_iff st now hnd hs).mpr hexp)
    · intro hfresh
      rw [hsess]
      rw [getA_foldl_eraseA_not_mem _ _ _
        (fun hmem => hfresh ((mem_expired_iff st now hnd hs).mp hmem))]
      exact hs
  · have hlen := foldl_eraseA_length (expired_list st now) st.sessions hnd
      (expired_list_nodup st now hnd)
      (fun k hk => mem_expired_exists st now hk)
    show (cleanup_expired_sessions st now).1.sessions.length +
      (expired_list st now).length = st.sessions.length
    rw [hsess]
    exact hlen
  · intro sid s hs hexp tid t hat ht hd
    have hmem : sid ∈ expired_list st now :=
      (mem_expired_iff st now hnd hs).mpr hexp
    obtain ⟨l1, l2, hsplit⟩ := List.append_of_mem hmem
    have hnd_exp : (expired_list st now).Nodup := expired_list_nodup st now hnd
    have hnotl1 : sid ∉ l1 := by
      rw [hsplit, List.nodup_append] at hnd_exp
      intro hc
      exact (hnd_exp.2.2 hc) (List.mem_cons_self _ _)
    have hfold : (cleanup_expired_sessions st now).1 =
        removeSessions (end_session (removeSessions st l1) sid).1 l2 := by
      show removeSessions st (expired_list st now) = _
      rw [hsplit]
      unfold removeSessions
      rw [List.foldl_append]
      rfl
    have hsmid : getA (removeSessions st l1).sessions sid = some s := by
      rw [removeSessions_sessions,
        getA_foldl_eraseA_not_mem _ _ _ hnotl1]
      exact hs
    obtain ⟨t1, ht1, hd1, _⟩ := tasksEvolve_removeSessions l1 st tid t ht
    have hcancelled :
        getA ((end_session (removeSessions st l1) sid).1).tasks tid =
          some { t1 with cancelRequested := true } :=
      end_session_cancel_helper (removeSessions st l1) sid s tid t1
        hsmid hat ht1 (hd1.trans hd)
    obtain ⟨t2, ht2, _, hc2⟩ :=
      tasksEvolve_removeSessions l2 (end_session (removeSessions st l1) sid).1
        tid _ hcancelled
    refine ⟨t2, ?_, hc2 rfl⟩
    rw [hfold]
    exact ht2

/-- The expired demo session: idle since 0, running task `1`. -/
def oldSess : Session :=
  { user_id := "u", created_at := 0, last_activity := 0,
    active_request_id := some "r", active_task := some 1 }

/-- The fresh demo session: last activity 50. -/
def freshSess : Session :=
  { user_id := "u", created_at := 0, last_activity := 50,
    active_request_id := none, active_task := none }

/-- A store with the expired session `old` and the fresh session `fresh`,
timeout 10. -/
def cleanupSt : ManagerState :=
  { sessions := [("old", oldSess), ("fresh", freshSess)],
    tasks := [(1, { done := false, cancelRequested := false,
                    owner := some "old" })],
    session_timeout := 10 }

/-- Witness for C6 at time 20 on `cleanupSt`: `old` (idle 20 > 10) is
removed and its running task is cancel-requested, `fresh` (idle 0) survives
unchanged, and the returned count accounts for exactly the removed
session. -/
theorem cleanup_expired_spec_w :
    getA (cleanup_expired_sessions cleanupSt 20).1.sessions "old" = none ∧
    getA (cleanup_expired_sessions cleanupSt 20).1.sessions "fresh" =
      some freshSess ∧
    (cleanup_expired_sessions cleanupSt 20).1.sessions.length +
      (cleanup_expired_sessions cleanupSt 20).2 =
      cleanupSt.sessions.length ∧
    (∃ t1, getA (cleanup_expired_sessions cleanupSt 20).1.tasks 1 =
      some t1 ∧ t1.cancelRequested = true) := by
  have h := cleanup_expired_spec cleanupSt 20 (by decide)
  refine ⟨(h.1 "old" oldSess rfl).1 (by decide),
          (h.1 "fresh" freshSess (by decide)).2 (by decide), h.2.1, ?_⟩
  exact h.2.2 "old" oldSess rfl (by decide) 1
    { done := false, cancelRequested := false, owner := some "old" }
    rfl rfl rfl

end VoiceCore
